import Mathlib

/-! Verification of webpagegrabber.

A shallow embedding of `webpagegrabber/main.go`: a command-line program that
parses three flags, drives a headless browser through three actions and writes
the extracted HTML to a file.

The program is one linear sequence of library calls.  The libraries themselves
(`chromedp`, `os`, `log`, `fmt`, `context`, `time`, `flag`) are the environment:
the browser engine is an arbitrary function (`World.run`), the file system is a
finite-map model of `os.WriteFile`, and process termination follows the Go
runtime (`os.Exit` skips deferred calls, returning from `main` runs them).
Every call the program makes is recorded in a trace of events, in call order.
-/

namespace WebPageGrabber

/-! ## Data model -/

/-- The three flag variables of `main` (lines 16-18) as `flag.Parse` leaves them. -/
structure Flags where
  url : String
  outputFile : String
  timeout : Int
deriving DecidableEq, Repr

/-- A regular file: its bytes and its permission bits. -/
structure File where
  data : List UInt8
  mode : Nat
deriving DecidableEq, Repr

/-- The file system: which regular file, if any, each path names. -/
abbrev FS := String → Option File

/-- Query options of chromedp selectors (`chromedp.ByQuery`; the default is a search). -/
inductive QueryOption
  | bySearch
  | byQuery
deriving DecidableEq, Repr

/-- The chromedp actions the program builds (lines 42-44).  The target of
`OuterHTML` is always the local variable `content`. -/
inductive Action
  | navigate (url : String)
  | waitVisible (sel : String) (opts : List QueryOption)
  | outerHTML (sel : String) (opts : List QueryOption)
deriving DecidableEq, Repr

/-- The two cancel functions `main` defers (lines 33 and 37). -/
inductive Cancel
  | timeoutCtx
  | browserCtx
deriving DecidableEq, Repr

/-- One observable call made by `main`. -/
inductive Event
  | withTimeout (d : Int)
  | newContext
  | run (actions : List Action)
  | writeFile (name : String) (data : List UInt8) (perm : Nat)
  | logFatal (msg : String)
  | printf (out : String)
  | cancel (c : Cancel)
deriving DecidableEq, Repr

/-- The environment of one invocation.
* `run d actions` is `chromedp.Run` on a browser context whose deadline is `d`
  nanoseconds away: the error text, or the string the `OuterHTML` action stored.
* `openError fs name` is the error with which opening `name` for writing fails
  in file-system state `fs` (missing directory, permission denied), if it does.
* `umask` is the process's file-mode creation mask. -/
structure World where
  run : Int → List Action → Except String String
  openError : FS → String → Option String
  umask : Nat

/-- The running process: file system, both output streams, the calls made so
far and the stack of deferred calls (most recent first). -/
structure Proc where
  fs : FS
  stdout : String
  stderr : List String
  trace : List Event
  deferred : List Cancel

/-- A terminated process with its exit status. -/
structure Outcome where
  exitCode : Nat
  proc : Proc

/-! ## Library calls -/

/-- Two's-complement wrap-around of a mathematical integer into `int64`. -/
def wrapInt64 (x : Int) : Int := (x + 2 ^ 63) % 2 ^ 64 - 2 ^ 63

/-- The constant `time.Second`, in nanoseconds. -/
def second : Int := 1000000000

/-- The expression `time.Duration(timeout)*time.Second` of line 32: a conversion of
the `int` to `int64` and an `int64` multiplication. -/
def timeoutDuration (timeout : Int) : Int := wrapInt64 (wrapInt64 timeout * second)

/-- The conversion `[]byte(content)` of line 51. -/
def bytes (s : String) : List UInt8 := s.toUTF8.data.toList

/-- The file system after a write that went through: a missing file is created with
`perm` less the umask, an existing one is truncated and keeps its mode, and the
file holds `data`. -/
def createOrTruncate (w : World) (fs : FS) (name : String) (data : List UInt8) (perm : Nat) :
    FS :=
  fun p =>
    if p = name then
      some ⟨data, match fs name with
        | some f => f.mode
        | none => perm &&& (0o777 ^^^ (w.umask &&& 0o777))⟩
    else fs p

/-- The result of `os.WriteFile(name, data, perm)`: if the file cannot be opened the
file system is unchanged and the error is returned; otherwise the file is created
or truncated and written. -/
def osWriteFile (w : World) (fs : FS) (name : String) (data : List UInt8) (perm : Nat) :
    FS × Option String :=
  match w.openError fs name with
  | some e => (fs, some e)
  | none => (createOrTruncate w fs name data perm, none)

/-- Record a call in the trace. -/
def Proc.emit (p : Proc) (e : Event) : Proc := { p with trace := p.trace ++ [e] }

/-- The statement `defer cancel()`: push the cancel function on the defer stack. -/
def Proc.defer (p : Proc) (c : Cancel) : Proc := { p with deferred := c :: p.deferred }

/-- The call `os.Exit(code)`: the process ends at once, deferred calls are not run. -/
def osExit (code : Nat) (p : Proc) : Outcome := ⟨code, p⟩

/-- The calls `log.Fatal(msg)` and `log.Fatalf`: the message goes to standard error,
then `os.Exit(1)`. -/
def logFatal (msg : String) (p : Proc) : Outcome :=
  osExit 1 ({ p with stderr := p.stderr ++ [msg] }.emit (.logFatal msg))

/-- The call `fmt.Printf` with its formatted text `out`: written to standard output. -/
def fmtPrintf (out : String) (p : Proc) : Proc :=
  { p with stdout := p.stdout ++ out }.emit (.printf out)

/-- Run the deferred calls, most recently deferred first. -/
def runDeferred (p : Proc) : Proc :=
  p.deferred.foldl (fun q c => q.emit (.cancel c)) { p with deferred := [] }

/-- Falling off the end of `main`: deferred calls run, then the process exits with 0. -/
def returnFromMain (p : Proc) : Outcome := ⟨0, runDeferred p⟩

/-- The action list handed to `chromedp.Run` (lines 42-44). -/
def fetchActions (url : String) : List Action :=
  [.navigate url, .waitVisible "body" [.byQuery], .outerHTML "html" []]

/-! ## The program -/

/-- The function `main` from line 26 on, for the flag values `flag.Parse` left. -/
def main (w : World) (f : Flags) (fs : FS) : Outcome :=
  let p : Proc := ⟨fs, "", [], [], []⟩
  if f.url = "" then
    logFatal "URL must be provided" p
  else
    let d := timeoutDuration f.timeout
    let p := (p.emit (.withTimeout d)).defer .timeoutCtx
    let p := (p.emit .newContext).defer .browserCtx
    let p := p.emit (.run (fetchActions f.url))
    match w.run d (fetchActions f.url) with
    | .error err => logFatal ("Failed to fetch content: " ++ err) p
    | .ok content =>
      let r := osWriteFile w p.fs f.outputFile (bytes content) 0o644
      let p := { p with fs := r.1 }.emit (.writeFile f.outputFile (bytes content) 0o644)
      match r.2 with
      | some err => logFatal ("Failed to write to file: " ++ err) p
      | none =>
        let p := fmtPrintf ("Content successfully saved to " ++ f.outputFile ++ "\n") p
        returnFromMain p

/-! ## Flag parsing (lines 15-24)

The three registrations of lines 20-22 and the argument loop of `flag.Parse`
(`FlagSet.parseOne` of the standard library), with `strconv.ParseInt` taken as the
parameter `parseInt`. -/

/-- The flag variables right after lines 20-22: every flag holds its default. -/
def defaultFlags : Flags := ⟨"", "out.html", 60⟩

/-- The three registered flags. -/
inductive FlagVar
  | url
  | outputFile
  | timeout
deriving DecidableEq, Repr

/-- The name each flag is registered under (lines 20-22). -/
def FlagVar.name : FlagVar → String
  | .url => "url"
  | .outputFile => "o"
  | .timeout => "t"

/-- The lookup `f.formal[name]`. -/
def lookupFlag (name : String) : Option FlagVar :=
  if name = "url" then some .url
  else if name = "o" then some .outputFile
  else if name = "t" then some .timeout
  else none

/-- The method `Value.Set` of each flag: the string flags store the text as it is,
the int flag stores what `parseInt` reads and fails when it reads nothing. -/
def FlagVar.set (parseInt : String → Option Int) (f : Flags) : FlagVar → String → Option Flags
  | .url, v => some { f with url := v }
  | .outputFile, v => some { f with outputFile := v }
  | .timeout, v => (parseInt v).map fun n => { f with timeout := n }

/-- The errors of `flag.Parse`; on each of them the process exits inside `flag.Parse`. -/
inductive FlagError
  | help
  | badSyntax (arg : String)
  | notDefined (name : String)
  | needsArgument (name : String)
  | invalidValue (value name : String)
deriving DecidableEq, Repr

/-- How `parseOne` reads one argument. -/
inductive ArgShape
  | nonFlag
  | terminator
  | badSyntax
  | flag (name : String) (value : Option String)
deriving DecidableEq, Repr

/-- The loop of `parseOne` that looks for the first `=` after the first character
of the name: the characters before it, and the characters after it if there is one. -/
def splitEquals : List Char → List Char × Option (List Char)
  | [] => ([], none)
  | c :: cs =>
    if c = '=' then ([], some cs)
    else ((c :: (splitEquals cs).1), (splitEquals cs).2)

/-- The first half of `parseOne`: an argument shorter than two characters or not
starting with `-` is no flag, `--` ends the flags, a name that is empty or starts
with `-` or `=` is bad syntax, otherwise the argument is a flag name, with the
value after the first `=` when there is one. -/
def argShape (s : String) : ArgShape :=
  match s.data with
  | c0 :: c1 :: cs =>
    if c0 ≠ '-' then .nonFlag
    else if c1 = '-' ∧ cs = [] then .terminator
    else
      match (if c1 = '-' then cs else c1 :: cs) with
      | [] => .badSyntax
      | n0 :: ns =>
        if n0 = '-' ∨ n0 = '=' then .badSyntax
        else .flag ⟨n0 :: (splitEquals ns).1⟩ ((splitEquals ns).2.map String.mk)
  | _ => .nonFlag

/-- The call `flag.Parse()` of line 24 on the arguments after the program name,
starting from flag values `f`: the final flag values and the arguments left over,
or the error that stops the process. -/
def flagParse (parseInt : String → Option Int) (f : Flags) :
    List String → Except FlagError (Flags × List String)
  | [] => .ok (f, [])
  | s :: rest =>
    match argShape s with
    | .nonFlag => .ok (f, s :: rest)
    | .terminator => .ok (f, rest)
    | .badSyntax => .error (.badSyntax s)
    | .flag name value =>
      match lookupFlag name with
      | none => if name = "help" ∨ name = "h" then .error .help else .error (.notDefined name)
      | some var =>
        match value with
        | some v =>
          match var.set parseInt f v with
          | none => .error (.invalidValue v name)
          | some f' => flagParse parseInt f' rest
        | none =>
          match rest with
          | [] => .error (.needsArgument name)
          | v :: rest' =>
            match var.set parseInt f v with
            | none => .error (.invalidValue v name)
            | some f' => flagParse parseInt f' rest'

/-- One flag given on the command line: which flag, the text of its value, whether
it is written with two dashes and whether the value is attached with `=`. -/
structure Given where
  var : FlagVar
  value : String
  doubleDash : Bool
  equalsForm : Bool
deriving DecidableEq, Repr

/-- The arguments a given flag takes up on the command line. -/
def Given.args (g : Given) : List String :=
  if g.equalsForm then
    [(if g.doubleDash then "--" else "-") ++ g.var.name ++ "=" ++ g.value]
  else
    [(if g.doubleDash then "--" else "-") ++ g.var.name, g.value]

/-- The value text of the last occurrence of a flag among the given ones, if any. -/
def lastValue (var : FlagVar) : List Given → Option String
  | [] => none
  | g :: gs =>
    match lastValue var gs with
    | some v => some v
    | none => if g.var = var then some g.value else none

/-- The command line made of the given flags, in order. -/
def commandLine : List Given → List String
  | [] => []
  | g :: gs => g.args ++ commandLine gs

/-- The flag values after one given flag is set; unchanged if its value is refused. -/
def Given.apply (parseInt : String → Option Int) (f : Flags) (g : Given) : Flags :=
  (g.var.set parseInt f g.value).getD f

/-- The value of a string of decimal digits, most significant first. -/
def digitsValue (acc : Nat) : List Char → Option Nat
  | [] => some acc
  | c :: cs => if c.isDigit then digitsValue (10 * acc + (c.toNat - 48)) cs else none

/-- A stand-in for `strconv.ParseInt` that reads plain decimal numerals with an
optional minus sign. -/
def decimalInt (s : String) : Option Int :=
  match s.data with
  | [] => none
  | c :: cs =>
    if c = '-' then
      (if cs = [] then none else (digitsValue 0 cs).map fun n => -(n : Int))
    else (digitsValue 0 (c :: cs)).map fun n => (n : Int)

/-- The exit status with which `flag.Parse` ends the process when it stops on an
error (the command-line flag set handles errors by exiting): 0 after `-h` or
`-help`, 2 after every other error. -/
def flagExitCode : FlagError → Nat
  | .help => 0
  | _ => 2

/-- The whole of `main`, from the command-line arguments after the program name
(lines 15-56): `flag.Parse` either exits by itself, having written the text
`usage e` to standard error, or returns and the rest of `main` runs on the flag
values it left. -/
def program (parseInt : String → Option Int) (usage : FlagError → String) (w : World)
    (args : List String) (fs : FS) : Outcome :=
  match flagParse parseInt defaultFlags args with
  | .error e => osExit (flagExitCode e) ⟨fs, "", [usage e], [], []⟩
  | .ok (f, _) => main w f fs

/-- A stand-in for the text `flag.Parse` writes to standard error when it stops. -/
def sampleUsage : FlagError → String := fun _ => "Usage of webpagegrabber:"

/-! ## Observations on traces and sample environments -/

/-- Whether an event is a call of `os.WriteFile`. -/
def Event.isWriteFile : Event → Bool
  | .writeFile _ _ _ => true
  | _ => false

/-- Whether an event is a call of `chromedp.Run`. -/
def Event.isRun : Event → Bool
  | .run _ => true
  | _ => false

/-- Whether an event is a call of `context.WithTimeout`. -/
def Event.isWithTimeout : Event → Bool
  | .withTimeout _ => true
  | _ => false

/-- Whether an event is a deferred cancel function running. -/
def Event.isCancel : Event → Bool
  | .cancel _ => true
  | _ => false

/-- An empty file system. -/
def emptyFS : FS := fun _ => none

/-- A file system holding one older file at `out.html`. -/
def staleFS : FS := fun p => if p = "out.html" then some ⟨bytes "old", 0o600⟩ else none

/-- An environment where the page loads and every path is writable. -/
def goodWorld : World := ⟨fun _ _ => .ok "<html></html>", fun _ _ => none, 0o022⟩

/-- An environment where the browser run hits its deadline. -/
def slowWorld : World := ⟨fun _ _ => .error "context deadline exceeded", fun _ _ => none, 0o022⟩

/-- An environment where the page loads and no path can be opened for writing. -/
def readOnlyWorld : World :=
  ⟨fun _ _ => .ok "<html></html>", fun _ _ => some "permission denied", 0o022⟩

/-- The flags of the invocation `-url http://example.com`. -/
def exampleFlags : Flags := ⟨"http://example.com", "out.html", 60⟩

/-! ## Auxiliary lemmas -/

/-- An `int64` value is its own wrap-around. -/
lemma wrapInt64_of_range (x : Int) (hlo : -2 ^ 63 ≤ x) (hhi : x < 2 ^ 63) : wrapInt64 x = x := by
  unfold wrapInt64
  omega

/-- Within 9223372036 seconds of zero the product of line 32 does not overflow. -/
lemma timeoutDuration_of_range (t : Int) (hlo : -9223372036 ≤ t) (hhi : t ≤ 9223372036) :
    timeoutDuration t = t * 1000000000 := by
  unfold timeoutDuration second
  rw [wrapInt64_of_range t (by omega) (by omega)]
  exact wrapInt64_of_range _ (by omega) (by omega)

/-- After a successful browser run the file system is the one `os.WriteFile` leaves. -/
lemma main_fs_of_run_ok (w : World) (f : Flags) (fs : FS) (c : String) (hurl : f.url ≠ "")
    (hrun : w.run (timeoutDuration f.timeout) (fetchActions f.url) = .ok c) :
    (main w f fs).proc.fs = (osWriteFile w fs f.outputFile (bytes c) 0o644).1 := by
  cases hw : (osWriteFile w fs f.outputFile (bytes c) 0o644).2 <;>
    simp [main, hurl, hrun, hw, logFatal, osExit, Proc.emit, Proc.defer,
      fmtPrintf, returnFromMain, runDeferred]

/-- Exit status 0 is reached only through a successful run and a successful write. -/
lemma main_exit_zero_elim (w : World) (f : Flags) (fs : FS) (h : (main w f fs).exitCode = 0) :
    f.url ≠ "" ∧ ∃ c, w.run (timeoutDuration f.timeout) (fetchActions f.url) = .ok c ∧
      w.openError fs f.outputFile = none := by
  by_cases hurl : f.url = ""
  · simp [main, hurl, logFatal, osExit] at h
  · refine ⟨hurl, ?_⟩
    cases hrun : w.run (timeoutDuration f.timeout) (fetchActions f.url) with
    | error err => simp [main, hurl, hrun, logFatal, osExit] at h
    | ok c =>
      refine ⟨c, rfl, ?_⟩
      cases hopen : w.openError fs f.outputFile with
      | none => rfl
      | some e =>
        have hw : (osWriteFile w fs f.outputFile (bytes c) 0o644).2 = some e := by
          simp [osWriteFile, hopen]
        simp [main, hurl, hrun, hw, logFatal, osExit, Proc.emit, Proc.defer] at h

/-- The result of `os.WriteFile` on a path that cannot be opened. -/
lemma osWriteFile_of_error (w : World) (fs : FS) (name : String) (data : List UInt8)
    (perm : Nat) (e : String) (hopen : w.openError fs name = some e) :
    osWriteFile w fs name data perm = (fs, some e) := by
  simp [osWriteFile, hopen]

/-- The result of `os.WriteFile` on a path that can be opened. -/
lemma osWriteFile_of_open (w : World) (fs : FS) (name : String) (data : List UInt8)
    (perm : Nat) (hopen : w.openError fs name = none) :
    osWriteFile w fs name data perm = (createOrTruncate w fs name data perm, none) := by
  simp [osWriteFile, hopen]

/-- Writing to a file the bytes it was just given changes nothing. -/
lemma createOrTruncate_again (w : World) (fs : FS) (name : String) (data : List UInt8)
    (perm : Nat) :
    createOrTruncate w (createOrTruncate w fs name data perm) name data perm =
      createOrTruncate w fs name data perm := by
  funext p
  by_cases hp : p = name
  · simp [createOrTruncate, hp]
  · simp [createOrTruncate, hp]

/-- A second `os.WriteFile` of the same bytes to the same path leaves the file
system the first one produced, whether or not the second one can open the file. -/
lemma osWriteFile_again (w : World) (fs : FS) (name : String) (data : List UInt8)
    (perm : Nat) (hopen : w.openError fs name = none) :
    (osWriteFile w (osWriteFile w fs name data perm).1 name data perm).1 =
      (osWriteFile w fs name data perm).1 := by
  rw [osWriteFile_of_open w fs name data perm hopen]
  cases h2 : w.openError (createOrTruncate w fs name data perm) name with
  | some e => rw [osWriteFile_of_error w _ name data perm e h2]
  | none =>
    rw [osWriteFile_of_open w _ name data perm h2]
    exact createOrTruncate_again w fs name data perm

/-- The shape `parseOne` sees in the first argument of a given flag. -/
lemma argShape_given_equals (g : Given) (h : g.equalsForm = true) (rest : List String) :
    ∃ s, g.args ++ rest = s :: rest ∧ argShape s = .flag g.var.name (some g.value) := by
  obtain ⟨var, value, dd, eq⟩ := g
  subst h
  cases var <;> cases dd <;>
    simp [Given.args, FlagVar.name, argShape, String.data_append, splitEquals]

/-- The shape `parseOne` sees when the value of a given flag is the next argument. -/
lemma argShape_given_next (g : Given) (h : g.equalsForm = false) (rest : List String) :
    ∃ s, g.args ++ rest = s :: g.value :: rest ∧ argShape s = .flag g.var.name none := by
  obtain ⟨var, value, dd, eq⟩ := g
  subst h
  cases var <;> cases dd <;>
    simp [Given.args, FlagVar.name, argShape, String.data_append, splitEquals]

/-- Every registered name is found under itself. -/
lemma lookupFlag_name (var : FlagVar) : lookupFlag var.name = some var := by
  cases var <;> simp [lookupFlag, FlagVar.name]

/-- Parsing a given flag sets that flag and goes on with the remaining arguments. -/
lemma flagParse_given (parseInt : String → Option Int) (f : Flags) (g : Given)
    (rest : List String) :
    flagParse parseInt f (g.args ++ rest) =
      match g.var.set parseInt f g.value with
      | none => .error (.invalidValue g.value g.var.name)
      | some f' => flagParse parseInt f' rest := by
  cases heq : g.equalsForm with
  | true =>
    obtain ⟨s, hs, hshape⟩ := argShape_given_equals g heq rest
    rw [hs, flagParse, hshape]
    simp only [lookupFlag_name]
  | false =>
    obtain ⟨s, hs, hshape⟩ := argShape_given_next g heq rest
    rw [hs, flagParse, hshape]
    simp only [lookupFlag_name]

/-- Parsing a command line of given flags whose timeout texts are all numerals sets
the flags one after the other. -/
lemma flagParse_commandLine (parseInt : String → Option Int) (gs : List Given)
    (hint : ∀ g ∈ gs, g.var = .timeout → (parseInt g.value).isSome = true)
    (f : Flags) (rest : List String) :
    flagParse parseInt f (commandLine gs ++ rest) =
      flagParse parseInt (gs.foldl (Given.apply parseInt) f) rest := by
  induction gs generalizing f with
  | nil => rfl
  | cons g gs ih =>
    have hg : ∃ f', g.var.set parseInt f g.value = some f' := by
      cases hv : g.var with
      | url => exact ⟨_, rfl⟩
      | outputFile => exact ⟨_, rfl⟩
      | timeout =>
        have h := hint g (List.mem_cons_self g gs) hv
        obtain ⟨n, hn⟩ := Option.isSome_iff_exists.mp h
        exact ⟨{ f with timeout := n }, by simp [FlagVar.set, hn]⟩
    obtain ⟨f', hf'⟩ := hg
    have happly : Given.apply parseInt f g = f' := by simp [Given.apply, hf']
    rw [commandLine, List.append_assoc, flagParse_given, hf']
    simp only [List.foldl_cons, happly]
    exact ih (fun g' hg' => hint g' (List.mem_cons_of_mem g hg')) f'

/-- The url after the given flags: the last given one, else the one before. -/
lemma foldl_apply_url (parseInt : String → Option Int) (gs : List Given) (f : Flags) :
    (gs.foldl (Given.apply parseInt) f).url = (lastValue .url gs).getD f.url := by
  induction gs generalizing f with
  | nil => rfl
  | cons g gs ih =>
    rw [List.foldl_cons, ih, lastValue]
    cases hl : lastValue .url gs with
    | some v => rfl
    | none =>
      obtain ⟨var, value, dd, eq⟩ := g
      cases var <;> simp [Given.apply, FlagVar.set]

/-- The output path after the given flags: the last given one, else the one before. -/
lemma foldl_apply_outputFile (parseInt : String → Option Int) (gs : List Given) (f : Flags) :
    (gs.foldl (Given.apply parseInt) f).outputFile =
      (lastValue .outputFile gs).getD f.outputFile := by
  induction gs generalizing f with
  | nil => rfl
  | cons g gs ih =>
    rw [List.foldl_cons, ih, lastValue]
    cases hl : lastValue .outputFile gs with
    | some v => rfl
    | none =>
      obtain ⟨var, value, dd, eq⟩ := g
      cases var <;> simp [Given.apply, FlagVar.set]

/-- The timeout after the given flags: what `parseInt` reads in the last given one,
else the one before. -/
lemma foldl_apply_timeout (parseInt : String → Option Int) (gs : List Given)
    (hint : ∀ g ∈ gs, g.var = .timeout → (parseInt g.value).isSome = true) (f : Flags) :
    match lastValue .timeout gs with
    | some v => parseInt v = some (gs.foldl (Given.apply parseInt) f).timeout
    | none => (gs.foldl (Given.apply parseInt) f).timeout = f.timeout := by
  induction gs generalizing f with
  | nil => rfl
  | cons g gs ih =>
    have ih' := ih (fun g' hg' => hint g' (List.mem_cons_of_mem g hg'))
      (Given.apply parseInt f g)
    rw [List.foldl_cons, lastValue]
    cases hl : lastValue .timeout gs with
    | some v => simpa [hl] using ih'
    | none =>
      rw [hl] at ih'
      simp only at ih'
      by_cases hv : g.var = .timeout
      · obtain ⟨n, hn⟩ := Option.isSome_iff_exists.mp (hint g (List.mem_cons_self g gs) hv)
        have happly : Given.apply parseInt f g = { f with timeout := n } := by
          simp [Given.apply, hv, FlagVar.set, hn]
        rw [happly] at ih' ⊢
        simp [hv, ih', hn]
      · simp only [hv, if_false, ih']
        obtain ⟨var, value, dd, eq⟩ := g
        cases var <;> simp_all [Given.apply, FlagVar.set]

/-- On the flag values `flag.Parse` left, the exit status of `main` is 0 exactly when
the url is non-empty, the browser run returns no error and the file write returns
no error; an empty url, a failed run and a failed write each give 1. -/
lemma main_exit_status_of_flags (w : World) (f : Flags) (fs : FS) :
    ((main w f fs).exitCode = 0 ↔
      f.url ≠ "" ∧ ∃ c, w.run (timeoutDuration f.timeout) (fetchActions f.url) = .ok c ∧
        (osWriteFile w fs f.outputFile (bytes c) 0o644).2 = none) ∧
    (f.url = "" → (main w f fs).exitCode = 1) ∧
    (∀ err, f.url ≠ "" →
      w.run (timeoutDuration f.timeout) (fetchActions f.url) = .error err →
      (main w f fs).exitCode = 1) ∧
    (∀ c err, f.url ≠ "" →
      w.run (timeoutDuration f.timeout) (fetchActions f.url) = .ok c →
      (osWriteFile w fs f.outputFile (bytes c) 0o644).2 = some err →
      (main w f fs).exitCode = 1) := by
  refine ⟨?_, ?_, ?_, ?_⟩
  · by_cases hurl : f.url = ""
    · simp [main, hurl, logFatal, osExit]
    · cases hrun : w.run (timeoutDuration f.timeout) (fetchActions f.url) with
      | error err => simp [main, hurl, hrun, logFatal, osExit]
      | ok c =>
        cases hw : (osWriteFile w fs f.outputFile (bytes c) 0o644).2 <;>
          simp [main, hurl, hrun, hw, logFatal, osExit, Proc.emit, Proc.defer, fmtPrintf,
            returnFromMain]
  · intro hurl
    simp [main, hurl, logFatal, osExit]
  · intro err hurl hrun
    simp [main, hurl, hrun, logFatal, osExit]
  · intro c err hurl hrun hw
    simp [main, hurl, hrun, hw, logFatal, osExit, Proc.emit, Proc.defer]

/-! ## Theorems -/

/-- C1: with an empty url, whatever the output path and timeout, `main` ends with
exit status 1 and the only call it makes is `log.Fatal("URL must be provided")`:
no timeout context, no browser context, no `chromedp.Run`, no `os.WriteFile`
(the file system is the initial one) and nothing on standard output. -/
theorem main_empty_url_fails_first (w : World) (outputFile : String) (timeout : Int) (fs : FS) :
    (main w ⟨"", outputFile, timeout⟩ fs).exitCode = 1 ∧
    (main w ⟨"", outputFile, timeout⟩ fs).proc.trace = [.logFatal "URL must be provided"] ∧
    (main w ⟨"", outputFile, timeout⟩ fs).proc.stderr = ["URL must be provided"] ∧
    (main w ⟨"", outputFile, timeout⟩ fs).proc.fs = fs ∧
    (main w ⟨"", outputFile, timeout⟩ fs).proc.stdout = "" := by
  simp [main, logFatal, osExit, Proc.emit]

/-- C2: for a non-empty url, if the browser run returns the error text `err`, `main`
ends with exit status 1 after logging `"Failed to fetch content: "` followed by
`err`; `os.WriteFile` is not called and the file system is the initial one, so
every path names the file it named before, or still none. -/
theorem main_run_error_writes_nothing (w : World) (f : Flags) (fs : FS) (err : String)
    (hurl : f.url ≠ "")
    (hrun : w.run (timeoutDuration f.timeout) (fetchActions f.url) = .error err) :
    (main w f fs).exitCode = 1 ∧
    (main w f fs).proc.stderr = ["Failed to fetch content: " ++ err] ∧
    (main w f fs).proc.trace.filter Event.isWriteFile = [] ∧
    (main w f fs).proc.fs = fs ∧
    ∀ path, (main w f fs).proc.fs path = fs path := by
  simp [main, hurl, hrun, logFatal, osExit, Proc.emit, Proc.defer, Event.isWriteFile]

/-- Witness for C2: the deadline expires while an older `out.html` exists. -/
theorem main_run_error_writes_nothing_witness :
    (main slowWorld exampleFlags staleFS).exitCode = 1 ∧
    (main slowWorld exampleFlags staleFS).proc.stderr =
      ["Failed to fetch content: " ++ "context deadline exceeded"] ∧
    (main slowWorld exampleFlags staleFS).proc.trace.filter Event.isWriteFile = [] ∧
    (main slowWorld exampleFlags staleFS).proc.fs = staleFS ∧
    ∀ path, (main slowWorld exampleFlags staleFS).proc.fs path = staleFS path :=
  main_run_error_writes_nothing slowWorld exampleFlags staleFS "context deadline exceeded"
    (by decide) rfl

/-- C3: for a non-empty url, if the browser run succeeds with the string `c`, `main`
calls `os.WriteFile` exactly once, with the output path, the bytes of `c` and mode
0644; the file system afterwards is the one that call leaves, and when the call
succeeds the output path names a file holding exactly the bytes of `c` (whatever
it held before), created with 0644 less the umask, and no other path changed. -/
theorem main_writes_content_once (w : World) (f : Flags) (fs : FS) (c : String)
    (hurl : f.url ≠ "")
    (hrun : w.run (timeoutDuration f.timeout) (fetchActions f.url) = .ok c) :
    (main w f fs).proc.trace.filter Event.isWriteFile =
      [.writeFile f.outputFile (bytes c) 0o644] ∧
    (main w f fs).proc.fs = (osWriteFile w fs f.outputFile (bytes c) 0o644).1 ∧
    (w.openError fs f.outputFile = none →
      (main w f fs).proc.fs f.outputFile = some ⟨bytes c,
        match fs f.outputFile with
        | some old => old.mode
        | none => 0o644 &&& (0o777 ^^^ (w.umask &&& 0o777))⟩ ∧
      ∀ path, path ≠ f.outputFile → (main w f fs).proc.fs path = fs path) := by
  refine ⟨?_, ?_, ?_⟩
  · cases hw : (osWriteFile w fs f.outputFile (bytes c) 0o644).2 <;>
      simp [main, hurl, hrun, hw, logFatal, osExit, Proc.emit, Proc.defer, Event.isWriteFile,
        fmtPrintf, returnFromMain, runDeferred]
  · cases hw : (osWriteFile w fs f.outputFile (bytes c) 0o644).2 <;>
      simp [main, hurl, hrun, hw, logFatal, osExit, Proc.emit, Proc.defer,
        fmtPrintf, returnFromMain, runDeferred]
  · intro hopen
    have hw : (osWriteFile w fs f.outputFile (bytes c) 0o644).2 = none := by
      simp [osWriteFile, hopen]
    constructor
    · simp [main, hurl, hrun, hw, Proc.emit, Proc.defer, fmtPrintf, returnFromMain,
        runDeferred]
      simp [osWriteFile, hopen, createOrTruncate]
    · intro path hpath
      simp [main, hurl, hrun, hw, Proc.emit, Proc.defer, fmtPrintf, returnFromMain,
        runDeferred]
      simp [osWriteFile, hopen, hpath, createOrTruncate]

/-- Witness for C3: the page replaces an older `out.html`, which keeps its mode. -/
theorem main_writes_content_once_witness :
    (main goodWorld exampleFlags staleFS).proc.trace.filter Event.isWriteFile =
      [.writeFile "out.html" (bytes "<html></html>") 0o644] ∧
    (main goodWorld exampleFlags staleFS).proc.fs "out.html" =
      some ⟨bytes "<html></html>", 0o600⟩ :=
  ⟨(main_writes_content_once goodWorld exampleFlags staleFS "<html></html>"
      (by decide) rfl).1,
   ((main_writes_content_once goodWorld exampleFlags staleFS "<html></html>"
      (by decide) rfl).2.2 rfl).1⟩

/-- C4 (evaluation at the failing inputs): when the browser run fails, and when the
file write fails, `main` ends through `log.Fatalf` with both cancel functions still
on the defer stack and neither of them run; only the successful path runs them. -/
theorem main_fatal_skips_deferred_cancels :
    ((main slowWorld exampleFlags emptyFS).exitCode = 1 ∧
      (main slowWorld exampleFlags emptyFS).proc.trace.filter Event.isCancel = [] ∧
      (main slowWorld exampleFlags emptyFS).proc.deferred = [.browserCtx, .timeoutCtx]) ∧
    ((main readOnlyWorld exampleFlags emptyFS).exitCode = 1 ∧
      (main readOnlyWorld exampleFlags emptyFS).proc.trace.filter Event.isCancel = [] ∧
      (main readOnlyWorld exampleFlags emptyFS).proc.deferred = [.browserCtx, .timeoutCtx]) ∧
    ((main goodWorld exampleFlags emptyFS).exitCode = 0 ∧
      (main goodWorld exampleFlags emptyFS).proc.trace.filter Event.isCancel =
        [.cancel .browserCtx, .cancel .timeoutCtx] ∧
      (main goodWorld exampleFlags emptyFS).proc.deferred = []) := by
  decide

/-- C5 (counterexample): on the command line `-h` the process exits with status 0
although `flag.Parse` stopped it with the url still empty, before any browser run
and any file write. -/
theorem help_flag_exits_zero :
    (program decimalInt sampleUsage goodWorld ["-h"] emptyFS).exitCode = 0 ∧
    defaultFlags.url = "" ∧
    (program decimalInt sampleUsage goodWorld ["-h"] emptyFS).proc.trace.filter
      Event.isRun = [] ∧
    (program decimalInt sampleUsage goodWorld ["-h"] emptyFS).proc.trace.filter
      Event.isWriteFile = [] := by
  decide

/-- C5 (amended): for every command line on which `flag.Parse` returns, with flag
values `f`, the process exits with status 0 exactly when the url is non-empty, the
browser run returns no error and the file write returns no error; with an empty
url, with a failed browser run and with a failed file write the exit status is 1. -/
theorem program_exit_status (parseInt : String → Option Int) (usage : FlagError → String)
    (w : World) (args : List String) (fs : FS) (f : Flags) (rest : List String)
    (hparse : flagParse parseInt defaultFlags args = .ok (f, rest)) :
    ((program parseInt usage w args fs).exitCode = 0 ↔
      f.url ≠ "" ∧ ∃ c, w.run (timeoutDuration f.timeout) (fetchActions f.url) = .ok c ∧
        (osWriteFile w fs f.outputFile (bytes c) 0o644).2 = none) ∧
    (f.url = "" → (program parseInt usage w args fs).exitCode = 1) ∧
    (∀ err, f.url ≠ "" →
      w.run (timeoutDuration f.timeout) (fetchActions f.url) = .error err →
      (program parseInt usage w args fs).exitCode = 1) ∧
    (∀ c err, f.url ≠ "" →
      w.run (timeoutDuration f.timeout) (fetchActions f.url) = .ok c →
      (osWriteFile w fs f.outputFile (bytes c) 0o644).2 = some err →
      (program parseInt usage w args fs).exitCode = 1) := by
  have hprog : program parseInt usage w args fs = main w f fs := by
    simp [program, hparse]
  rw [hprog]
  exact main_exit_status_of_flags w f fs

/-- Witness for C5 (amended): the command line `-url http://example.com` in an
environment where the browser run hits its deadline. -/
theorem program_exit_status_witness :
    flagParse decimalInt defaultFlags ["-url", "http://example.com"] =
      .ok (exampleFlags, []) ∧
    (program decimalInt sampleUsage slowWorld ["-url", "http://example.com"]
      emptyFS).exitCode = 1 :=
  ⟨rfl,
   (program_exit_status decimalInt sampleUsage slowWorld ["-url", "http://example.com"]
      emptyFS exampleFlags [] rfl).2.2.1 "context deadline exceeded" (by decide) rfl⟩

/-- C6: standard output is `"Content successfully saved to "` followed by the output
path and a newline when the url is non-empty and the browser run and the file write
both succeed, and empty otherwise; whenever a `fmt.Printf` call is in the trace the
successful `os.WriteFile` call is the call right before it. -/
theorem main_stdout (w : World) (f : Flags) (fs : FS) :
    ((f.url ≠ "" ∧ ∃ c, w.run (timeoutDuration f.timeout) (fetchActions f.url) = .ok c ∧
        (osWriteFile w fs f.outputFile (bytes c) 0o644).2 = none) →
      (main w f fs).proc.stdout = "Content successfully saved to " ++ f.outputFile ++ "\n") ∧
    (¬ (f.url ≠ "" ∧ ∃ c, w.run (timeoutDuration f.timeout) (fetchActions f.url) = .ok c ∧
        (osWriteFile w fs f.outputFile (bytes c) 0o644).2 = none) →
      (main w f fs).proc.stdout = "") ∧
    (∀ out, Event.printf out ∈ (main w f fs).proc.trace →
      ∃ pre post c, (main w f fs).proc.trace =
          pre ++ Event.writeFile f.outputFile (bytes c) 0o644 :: Event.printf out :: post ∧
        (osWriteFile w fs f.outputFile (bytes c) 0o644).2 = none ∧
        Event.printf out ∉ pre ∧ Event.printf out ∉ post) := by
  by_cases hurl : f.url = ""
  · simp [main, hurl, logFatal, osExit, Proc.emit]
  · cases hrun : w.run (timeoutDuration f.timeout) (fetchActions f.url) with
    | error err => simp [main, hurl, hrun, logFatal, osExit, Proc.emit, Proc.defer]
    | ok c =>
      cases hw : (osWriteFile w fs f.outputFile (bytes c) 0o644).2 with
      | some err => simp [main, hurl, hrun, hw, logFatal, osExit, Proc.emit, Proc.defer]
      | none =>
        refine ⟨?_, ?_, ?_⟩
        · intro _
          simp [main, hurl, hrun, hw, Proc.emit, Proc.defer, fmtPrintf, returnFromMain,
            runDeferred]
        · intro h
          exact absurd ⟨hurl, c, rfl, hw⟩ h
        · intro out hout
          refine ⟨[.withTimeout (timeoutDuration f.timeout), .newContext,
            .run (fetchActions f.url)], [.cancel .browserCtx, .cancel .timeoutCtx], c, ?_⟩
          simp [main, hurl, hrun, hw, Proc.emit, Proc.defer, fmtPrintf, returnFromMain,
            runDeferred] at hout ⊢
          exact hout.symm

/-- C7: for a non-empty url, `main` calls `chromedp.Run` exactly once, whether or not
that call fails, with exactly three actions in this order: navigate to the url as
given, wait for `"body"` (selected by query) to be visible, extract the outer HTML
of `"html"`. -/
theorem main_runs_browser_once (w : World) (f : Flags) (fs : FS) (hurl : f.url ≠ "") :
    (main w f fs).proc.trace.filter Event.isRun =
      [.run [.navigate f.url, .waitVisible "body" [.byQuery], .outerHTML "html" []]] := by
  cases hrun : w.run (timeoutDuration f.timeout) (fetchActions f.url) with
  | error err =>
    simp [main, hurl, hrun, logFatal, osExit, Proc.emit, Proc.defer, Event.isRun]
    rfl
  | ok c =>
    cases hw : (osWriteFile w fs f.outputFile (bytes c) 0o644).2 <;>
      simp [main, hurl, hrun, hw, logFatal, osExit, Proc.emit, Proc.defer, Event.isRun,
        fmtPrintf, returnFromMain, runDeferred] <;> rfl

/-- Witness for C7: a run that fails is not repeated. -/
theorem main_runs_browser_once_witness :
    (main slowWorld exampleFlags emptyFS).proc.trace.filter Event.isRun =
      [.run [.navigate "http://example.com", .waitVisible "body" [.byQuery],
        .outerHTML "html" []]] :=
  main_runs_browser_once slowWorld exampleFlags emptyFS (by decide)

/-- C8 (counterexample): 9223372037 is a Go `int`, yet the duration `main` passes to
`context.WithTimeout` for it is negative, not 9223372037 seconds, and it is
shorter than the duration for a timeout of 1. -/
theorem timeout_duration_overflows :
    (-2 ^ 63 ≤ (9223372037 : Int) ∧ (9223372037 : Int) < 2 ^ 63) ∧
    (main goodWorld ⟨"http://example.com", "out.html", 9223372037⟩ emptyFS).proc.trace.filter
      Event.isWithTimeout = [.withTimeout (-9223372036709551616)] ∧
    timeoutDuration 9223372037 ≠ 9223372037 * 1000000000 ∧
    ((1 : Int) < 9223372037 ∧ timeoutDuration 9223372037 < timeoutDuration 1) := by
  decide

/-- C8 (amended): for a non-empty url and a timeout of at most 9223372036 seconds in
absolute value, `main` calls `context.WithTimeout` once, with exactly
`timeout * 1000000000` nanoseconds, and among such timeouts a larger one never
gives a shorter duration. -/
theorem main_timeout_duration_exact (w : World) (f : Flags) (fs : FS) (hurl : f.url ≠ "")
    (hlo : -9223372036 ≤ f.timeout) (hhi : f.timeout ≤ 9223372036) :
    (main w f fs).proc.trace.filter Event.isWithTimeout =
      [.withTimeout (f.timeout * 1000000000)] ∧
    ∀ t, -9223372036 ≤ t → t ≤ f.timeout → timeoutDuration t ≤ timeoutDuration f.timeout := by
  constructor
  · rw [← timeoutDuration_of_range f.timeout hlo hhi]
    cases hrun : w.run (timeoutDuration f.timeout) (fetchActions f.url) with
    | error err =>
      simp [main, hurl, hrun, logFatal, osExit, Proc.emit, Proc.defer, Event.isWithTimeout]
    | ok c =>
      cases hw : (osWriteFile w fs f.outputFile (bytes c) 0o644).2 <;>
        simp [main, hurl, hrun, hw, logFatal, osExit, Proc.emit, Proc.defer,
          Event.isWithTimeout, fmtPrintf, returnFromMain, runDeferred]
  · intro t htlo hthi
    rw [timeoutDuration_of_range f.timeout hlo hhi,
      timeoutDuration_of_range t htlo (le_trans hthi hhi)]
    omega

/-- Witness for C8 (amended): a zero timeout and a negative one. -/
theorem main_timeout_duration_exact_witness :
    (main goodWorld ⟨"http://example.com", "out.html", 0⟩ emptyFS).proc.trace.filter
      Event.isWithTimeout = [.withTimeout (0 * 1000000000)] ∧
    timeoutDuration (-5) ≤ timeoutDuration 0 :=
  ⟨(main_timeout_duration_exact goodWorld ⟨"http://example.com", "out.html", 0⟩ emptyFS
      (by decide) (by decide) (by decide)).1,
   (main_timeout_duration_exact goodWorld ⟨"http://example.com", "out.html", 0⟩ emptyFS
      (by decide) (by decide) (by decide)).2 (-5) (by decide) (by decide)⟩

/-- C9: with the browser a function of its arguments, if one invocation of `main`
succeeds, a second invocation with the same flags on the file system the first
one left ends with that same file system; in particular the output path names
the same file with the same bytes. -/
theorem main_twice_same_fs (w : World) (f : Flags) (fs : FS)
    (hfirst : (main w f fs).exitCode = 0) :
    (main w f (main w f fs).proc.fs).proc.fs = (main w f fs).proc.fs ∧
    (main w f (main w f fs).proc.fs).proc.fs f.outputFile =
      (main w f fs).proc.fs f.outputFile ∧
    ∃ c, w.run (timeoutDuration f.timeout) (fetchActions f.url) = .ok c ∧
      ((main w f fs).proc.fs f.outputFile).map File.data = some (bytes c) := by
  obtain ⟨hurl, c, hrun, hopen⟩ := main_exit_zero_elim w f fs hfirst
  have h1 := main_fs_of_run_ok w f fs c hurl hrun
  have h2 := main_fs_of_run_ok w f (main w f fs).proc.fs c hurl hrun
  have h3 : (main w f (main w f fs).proc.fs).proc.fs = (main w f fs).proc.fs := by
    rw [h2, h1]
    exact osWriteFile_again w fs f.outputFile (bytes c) 0o644 hopen
  refine ⟨h3, by rw [h3], c, hrun, ?_⟩
  rw [h1]
  simp [osWriteFile, hopen, createOrTruncate]

/-- Witness for C9: fetching the example page twice over an older `out.html`. -/
theorem main_twice_same_fs_witness :
    (main goodWorld exampleFlags (main goodWorld exampleFlags staleFS).proc.fs).proc.fs =
      (main goodWorld exampleFlags staleFS).proc.fs :=
  (main_twice_same_fs goodWorld exampleFlags staleFS (by decide)).1

/-- C10: on a command line made of given flags (each written with one or two dashes,
its value attached with `=` or as the next argument) whose timeout values are
numerals, `flag.Parse` succeeds with no argument left over, and in the flag values
it leaves: a flag that was not given holds its default, `""` for the url (so `main`
ends with the fatal error `"URL must be provided"`), `"out.html"` for the output
path and 60 for the timeout, which is 60 seconds; a string flag that was given
holds the text last given for it, unchanged, and a given timeout holds the integer
read from the text last given for it. -/
theorem flags_default_or_given (parseInt : String → Option Int) (gs : List Given)
    (hint : ∀ g ∈ gs, g.var = .timeout → (parseInt g.value).isSome = true) :
    ∃ cfg, flagParse parseInt defaultFlags (commandLine gs) = .ok (cfg, []) ∧
      (lastValue .url gs = none → cfg.url = "" ∧
        ∀ w fs, (main w cfg fs).exitCode = 1 ∧
          (main w cfg fs).proc.trace = [.logFatal "URL must be provided"]) ∧
      (∀ v, lastValue .url gs = some v → cfg.url = v) ∧
      (lastValue .outputFile gs = none → cfg.outputFile = "out.html") ∧
      (∀ v, lastValue .outputFile gs = some v → cfg.outputFile = v) ∧
      (lastValue .timeout gs = none →
        cfg.timeout = 60 ∧ timeoutDuration cfg.timeout = 60 * second) ∧
      (∀ v, lastValue .timeout gs = some v → parseInt v = some cfg.timeout) := by
  refine ⟨gs.foldl (Given.apply parseInt) defaultFlags, ?_, ?_, ?_, ?_, ?_, ?_, ?_⟩
  · have h := flagParse_commandLine parseInt gs hint defaultFlags []
    rw [List.append_nil] at h
    rw [h]
    rfl
  · intro hnone
    have hurl : (gs.foldl (Given.apply parseInt) defaultFlags).url = "" := by
      rw [foldl_apply_url, hnone]
      rfl
    refine ⟨hurl, fun w fs => ?_⟩
    simp [main, hurl, logFatal, osExit, Proc.emit]
  · intro v hv
    rw [foldl_apply_url, hv]
    rfl
  · intro hnone
    rw [foldl_apply_outputFile, hnone]
    rfl
  · intro v hv
    rw [foldl_apply_outputFile, hv]
    rfl
  · intro hnone
    have h := foldl_apply_timeout parseInt gs hint defaultFlags
    rw [hnone] at h
    simp only at h
    rw [h]
    exact ⟨rfl, by decide⟩
  · intro v hv
    have h := foldl_apply_timeout parseInt gs hint defaultFlags
    rw [hv] at h
    exact h

/-- Witness for C10: the command line `-url http://example.com --t=30`. -/
theorem flags_default_or_given_witness :
    ∃ cfg, flagParse decimalInt defaultFlags ["-url", "http://example.com", "--t=30"] =
        .ok (cfg, []) ∧
      cfg.url = "http://example.com" ∧ cfg.outputFile = "out.html" ∧
      decimalInt "30" = some cfg.timeout :=
  match flags_default_or_given decimalInt
      [⟨.url, "http://example.com", false, false⟩, ⟨.timeout, "30", true, true⟩]
      (by decide) with
  | ⟨cfg, hparse, _, hurl, hout, _, _, htimeout⟩ =>
    ⟨cfg, hparse, hurl "http://example.com" rfl, hout rfl, htimeout "30" rfl⟩

end WebPageGrabber
